import Mathlib

/-!
Verification of the social-media-post-generator repository (React client +
Azure Functions API). The definitions below are shallow embeddings of the
JavaScript/TypeScript sources:

* `src/api/src/services/cosmos.js`   — CosmosService (local mock mode: the
  in-repo `Map`-backed key-value store; production mode delegates to the
  external Cosmos SDK and is out of scope).
* the `data` HTTP handler            — GET/POST/DELETE on a named value.
* the `chat` HTTP handler            — per-platform post generation.
* `src/api/src/services/openai.js`   — OpenAIService.generateSocialMediaPost
  (the remote completion call is an oracle parameter; the in-repo mock
  fallback is embedded in full).
* `src/api/src/functions/extract-url.js` — URL content extraction.
* `src/api/app.js` (useAzureData / useKV hook) — client data-sync hook,
  embedded as an explicit state machine.
* the duplicated `platformConfigs` tables (API copy and client copy in
  `src/src/App.tsx`).

JavaScript values that flow through these functions are modelled by the
`Json` type below; machine details that none of the code observes (number
formatting of non-integers, prototype chains) are not modelled.
-/

namespace SMPG

/-- JSON-serializable JavaScript values. Numbers are modelled as integers:
every numeric literal the embedded code manipulates or tests for truthiness
is an integer, and no arithmetic is performed on stored numbers. -/
inductive Json where
  | null : Json
  | bool : Bool → Json
  | num : Int → Json
  | str : String → Json
  | arr : List Json → Json
  | obj : List (String × Json) → Json
deriving Repr

mutual

/-- Structural (boolean) equality of `Json` values. -/
def Json.beq : Json → Json → Bool
  | .null, .null => true
  | .bool x, .bool y => x == y
  | .num x, .num y => x == y
  | .str x, .str y => x == y
  | .arr xs, .arr ys => Json.beqList xs ys
  | .obj fs, .obj gs => Json.beqFields fs gs
  | _, _ => false

/-- Structural equality of `Json` arrays. -/
def Json.beqList : List Json → List Json → Bool
  | [], [] => true
  | x :: xs, y :: ys => Json.beq x y && Json.beqList xs ys
  | _, _ => false

/-- Structural equality of `Json` object field lists. -/
def Json.beqFields : List (String × Json) → List (String × Json) → Bool
  | [], [] => true
  | (k, v) :: fs, (k', v') :: gs => k == k' && Json.beq v v' && Json.beqFields fs gs
  | _, _ => false

end

mutual

theorem Json.beq_iff : ∀ a b : Json, Json.beq a b = true ↔ a = b
  | a, b => by
    cases a <;> cases b <;>
      simp only [Json.beq, beq_iff_eq, Json.arr.injEq, Json.obj.injEq, Json.bool.injEq,
        Json.num.injEq, Json.str.injEq, reduceCtorEq, Bool.false_eq_true, iff_false,
        not_false_eq_true, iff_true]
    case arr.arr xs ys => exact Json.beqList_iff xs ys
    case obj.obj fs gs => exact Json.beqFields_iff fs gs

theorem Json.beqList_iff : ∀ xs ys : List Json, Json.beqList xs ys = true ↔ xs = ys
  | [], [] => by simp [Json.beqList]
  | [], _ :: _ => by simp [Json.beqList]
  | _ :: _, [] => by simp [Json.beqList]
  | x :: xs, y :: ys => by
    simp only [Json.beqList, Bool.and_eq_true, List.cons.injEq]
    exact and_congr (Json.beq_iff x y) (Json.beqList_iff xs ys)

theorem Json.beqFields_iff :
    ∀ fs gs : List (String × Json), Json.beqFields fs gs = true ↔ fs = gs
  | [], [] => by simp [Json.beqFields]
  | [], _ :: _ => by simp [Json.beqFields]
  | _ :: _, [] => by simp [Json.beqFields]
  | (k, v) :: fs, (k', v') :: gs => by
    simp only [Json.beqFields, Bool.and_eq_true, List.cons.injEq, Prod.mk.injEq, beq_iff_eq]
    rw [Json.beq_iff v v', Json.beqFields_iff fs gs, and_assoc]

end

instance : DecidableEq Json := fun a b => decidable_of_iff _ (Json.beq_iff a b)

/-- JavaScript truthiness of a `Json` value: `null`, `false`, `0` and `""`
are falsy; every array and object is truthy. -/
def Json.truthy : Json → Bool
  | .null => false
  | .bool b => b
  | .num n => n != 0
  | .str s => s != ""
  | .arr _ => true
  | .obj _ => true

/-- The JavaScript expression `v || null`: a falsy value collapses to
`null`, a truthy value passes through. -/
def jsOrNull (v : Json) : Json :=
  if v.truthy then v else Json.null

/-- Property read `o["k"]` on a parsed JSON value: `some` for a present
field of an object, `none` (JavaScript `undefined`) otherwise. -/
def Json.field : Json → String → Option Json
  | .obj fs, k => fs.lookup k
  | _, _ => none

/-- JSON.stringify for the modelled values. Field/element order is
preserved; strings escape the backslash, the double quote and the newline
(the only characters the embedded comparisons can encounter). -/
def jsonEscape (s : String) : String :=
  String.join (s.toList.map fun c =>
    if c = '\\' then "\\\\"
    else if c = '"' then "\\\""
    else if c = '\n' then "\\n"
    else String.mk [c])

mutual

/-- Serialize one `Json` value (the shape produced by `JSON.stringify`). -/
def Json.stringify : Json → String
  | .null => "null"
  | .bool true => "true"
  | .bool false => "false"
  | .num n => toString n
  | .str s => "\"" ++ jsonEscape s ++ "\""
  | .arr xs => "[" ++ Json.stringifyList xs ++ "]"
  | .obj fs => "\x7b" ++ Json.stringifyFields fs ++ "\x7d"

/-- Serialize array elements, comma separated. -/
def Json.stringifyList : List Json → String
  | [] => ""
  | [x] => Json.stringify x
  | x :: xs => Json.stringify x ++ "," ++ Json.stringifyList xs

/-- Serialize object fields, comma separated. -/
def Json.stringifyFields : List (String × Json) → String
  | [] => ""
  | [(k, v)] => "\"" ++ jsonEscape k ++ "\":" ++ Json.stringify v
  | (k, v) :: fs => "\"" ++ jsonEscape k ++ "\":" ++ Json.stringify v ++ "," ++ Json.stringifyFields fs

end

/-! The in-memory store of `cosmos.js` local mode (`this.localStorage = new
Map()`). A JavaScript `Map` holds at most one entry per key; `set` is
modelled as remove-then-prepend and `delete` removes the key, so the model
has `Map` semantics over any state. Iteration order is never observed by
the embedded code. -/

/-- State of the mock Cosmos store: string keys to stored JSON values. -/
abbrev Store := List (String × Json)

/-- The empty store (`new Map()`). -/
def Store.empty : Store := []

/-- Map.get: the value stored at `k`, if any. -/
def Store.get : Store → String → Option Json
  | [], _ => none
  | (k', v) :: rest, k => if k' = k then some v else Store.get rest k

/-- Remove every entry for `k` (at most one exists in any state a `Map`
can reach). -/
def Store.removeKey : Store → String → Store
  | [], _ => []
  | (k', v) :: rest, k =>
    if k' = k then Store.removeKey rest k else (k', v) :: Store.removeKey rest k

/-- Map.set: store `v` at `k`, replacing any previous entry. -/
def Store.set (st : Store) (k : String) (v : Json) : Store :=
  (k, v) :: st.removeKey k

/-- Map.has: whether an entry for `k` exists. -/
def Store.hasKey (st : Store) (k : String) : Bool :=
  (st.get k).isSome

/-- Map.delete: remove the entry for `k`. -/
def Store.del (st : Store) (k : String) : Store :=
  st.removeKey k

/-- cosmos.js `getLocalKey(key, userId)`: the composite map key
`userId:key`. -/
def localKey (key userId : String) : String :=
  userId ++ ":" ++ key

/-- cosmos.js `getValue` in local mode:
`this.localStorage.get(localKey) || null` — an absent entry reads as
`null`, and a stored falsy value also collapses to `null`. -/
def getValue (st : Store) (key userId : String) : Json :=
  match st.get (localKey key userId) with
  | none => Json.null
  | some v => jsOrNull v

/-- cosmos.js `setValue` in local mode: store the value unchanged and
return it. -/
def setValue (st : Store) (key : String) (v : Json) (userId : String) : Json × Store :=
  (v, st.set (localKey key userId) v)

/-- cosmos.js `deleteValue` in local mode: report whether the entry
existed, then remove it. -/
def deleteValue (st : Store) (key userId : String) : Bool × Store :=
  (st.hasKey (localKey key userId), st.del (localKey key userId))

/-! The `data` HTTP handler (route `data/{key?}`). -/

/-- HTTP methods the `data` function is registered for, plus a catch-all
for the handler's own `default:` branch. -/
inductive Method where
  | get | post | delete | options | other
deriving Repr, DecidableEq

/-- An HTTP response as the handler builds it: a status code and the
JSON-stringified body, modelled structurally. `OPTIONS` responses carry no
body, modelled as `Json.null`. -/
structure HttpResponse where
  status : Nat
  body : Json
deriving Repr, DecidableEq

/-- The `data` handler. `key?` is the optional route parameter, `userId?`
the optional `userId` query value (`null` when absent, resolved by
`request.query.get('userId') || 'default'`), and `body?` the parsed POST
body (`none` models a JSON parse failure of `request.json()`). The store
threads through explicitly. The handler's outer catch is unreachable in
local mode (no store operation throws) and `POST` of a literal `null` body
(which would throw at destructuring) is likewise routed through the
modelled value-missing check; neither path is exercised by any theorem. -/
def dataHandler (method : Method) (key? : Option String) (userId? : Option String)
    (body? : Option Json) (st : Store) : HttpResponse × Store :=
  if method = .options then
    ({ status := 200, body := Json.null }, st)
  else
    let userId := match userId? with
      | none => "default"
      | some u => if u = "" then "default" else u
    match key? with
    | none => ({ status := 400, body := .obj [("error", .str "Key parameter is required")] }, st)
    | some key =>
      if key = "" then
        ({ status := 400, body := .obj [("error", .str "Key parameter is required")] }, st)
      else
        match method with
        | .get =>
          let value := getValue st key userId
          ({ status := 200,
             body := .obj [("success", .bool true), ("key", .str key), ("value", jsOrNull value)] }, st)
        | .post =>
          match body? with
          | none => ({ status := 400, body := .obj [("error", .str "Invalid JSON in request body")] }, st)
          | some body =>
            match body.field "value" with
            | none =>
              ({ status := 400,
                 body := .obj [("error", .str "Value is required in request body")] }, st)
            | some newValue =>
              let (savedValue, st') := setValue st key newValue userId
              ({ status := 200,
                 body := .obj [("success", .bool true), ("key", .str key), ("value", savedValue)] }, st')
        | .delete =>
          let (deleted, st') := deleteValue st key userId
          ({ status := 200,
             body := .obj [("success", .bool true), ("key", .str key), ("deleted", .bool deleted)] }, st')
        | _ => ({ status := 405, body := .obj [("error", .str "Method not allowed")] }, st)

/-! ## Platform configuration tables

The API copy lives at the top of the `chat` function source; the client
copy lives in `src/src/App.tsx`. Icons are the exact character sequences of
the two source files: the API file holds the emoji; the client file holds a
mis-encoded rendition of them (U+F8FF followed by Latin-1/symbol
characters — the UTF-8 emoji bytes decoded under a legacy encoding). -/

/-- Static per-platform metadata: display name, presentation color,
maximum post length, icon. -/
structure PlatformConfig where
  name : String
  color : String
  maxLength : Nat
  icon : String
deriving Repr, DecidableEq

/-- The API-side `platformConfigs` object (chat function source, lines
4–9). -/
def apiPlatformConfigs : String → Option PlatformConfig := fun id =>
  if id = "linkedin" then some ⟨"LinkedIn", "bg-blue-600", 3000, "💼"⟩
  else if id = "instagram" then some ⟨"Instagram", "bg-pink-600", 2200, "📸"⟩
  else if id = "twitter" then some ⟨"X (Twitter)", "bg-black", 280, "🐦"⟩
  else if id = "facebook" then some ⟨"Facebook", "bg-blue-700", 63206, "👥"⟩
  else none

/-- The client-side `platformConfigs` object (`src/src/App.tsx` lines
34–39). The icon strings are written with explicit escapes because the
file's icon characters are a mojibake of the API emoji: e.g. the linkedin
icon bytes EF A3 BF C3 BC C3 AD C2 BA decode to U+F8FF U+00FC U+00ED
U+00BA, not to U+1F4BC. -/
def clientPlatformConfigs : String → Option PlatformConfig := fun id =>
  if id = "linkedin" then some ⟨"LinkedIn", "bg-blue-600", 3000, "üíº"⟩
  else if id = "instagram" then some ⟨"Instagram", "bg-pink-600", 2200, "üì∏"⟩
  else if id = "twitter" then some ⟨"X (Twitter)", "bg-black", 280, "üê¶"⟩
  else if id = "facebook" then some ⟨"Facebook", "bg-blue-700", 63206, "üë•"⟩
  else none

/-! ## OpenAIService (`src/api/src/services/openai.js`)

The remote Azure OpenAI completion call is an external capability, passed
in as an oracle `String → Except String (Option String)` mapping the
platform of the request to either a thrown error (`.error`, covering
credential failure, non-ok HTTP status and network failure) or the
completion body's first choice text (`.ok (some t)`; `.ok none` models a
response without message content). Everything the service itself computes
is embedded in full. -/

/-- Width of a character in UTF-16 code units — JavaScript's unit for
`String.prototype.length` and `substring`. -/
def utf16Width (c : Char) : Nat :=
  if c.toNat < 0x10000 then 1 else 2

/-- JavaScript `s.length`: the UTF-16 code-unit count. -/
def utf16Len (s : String) : Nat :=
  (s.toList.map utf16Width).sum

/-- Take a prefix of at most `n` UTF-16 code units, by whole characters.
JavaScript `substring` can split a surrogate pair; the resulting lone
surrogate has no `Char` counterpart, so a straddling character is dropped
instead (no theorem depends on that corner). -/
def utf16TakeAux : Nat → List Char → List Char
  | _, [] => []
  | n, c :: cs => if utf16Width c ≤ n then c :: utf16TakeAux (n - utf16Width c) cs else []

/-- JavaScript `s.substring(0, n)` with `n` in UTF-16 code units. -/
def utf16Take (s : String) (n : Nat) : String :=
  String.mk (utf16TakeAux n s.toList)

/-- JavaScript `s.trim()`: drop leading and trailing whitespace. Defined
by structural recursion (Lean's own `String.trim` is byte-position based
and does not reduce in the kernel). -/
def jsTrim (s : String) : String :=
  String.mk (((s.toList.dropWhile Char.isWhitespace).reverse.dropWhile
    Char.isWhitespace).reverse)

/-- The `platformEmojis[platform] || '📱'` lookup inside
`generateMockPost`. -/
def platformEmojis (platform : String) : String :=
  if platform = "linkedin" then "💼🚀"
  else if platform = "instagram" then "📸✨"
  else if platform = "twitter" then "🐦💭"
  else if platform = "facebook" then "👥💬"
  else "📱"

/-- JavaScript `name.replace(/[^a-zA-Z0-9]/g, '')`. -/
def sanitizeName (name : String) : String :=
  String.mk (name.toList.filter fun c => c.isAlpha || c.isDigit)

/-- OpenAIService.generateMockPost: the deterministic local/fallback post
text. -/
def generateMockPost (content platform : String) (cfg : PlatformConfig) : String :=
  let emoji := platformEmojis platform
  let truncatedContent :=
    if utf16Len content > 100 then utf16Take content 100 ++ "..." else content
  emoji ++ " Here's a " ++ cfg.name ++ " post based on: \"" ++ truncatedContent ++
    "\" \n\n[This is a mock response for local development] \n\n#SocialMedia #" ++
    sanitizeName cfg.name

/-- OpenAIService.createPlatformPrompt: the prompt template sent to the
completion endpoint (its content only reaches the oracle, but the template
is part of the service). -/
def createPlatformPrompt (content : String) (cfg : PlatformConfig) : String :=
  "Transform the following content into an engaging " ++ cfg.name ++
    " post that follows the platform's best practices and stays within " ++
    toString cfg.maxLength ++ " characters.\n\nContent: " ++ content ++
    "\n\nPlatform: " ++ cfg.name ++ "\nCharacter limit: " ++ toString cfg.maxLength ++
    "\n\nRequirements:\n- Make it engaging and platform-appropriate\n- Use relevant hashtags for " ++
    cfg.name ++ "\n- Match the tone and style typical for " ++ cfg.name ++
    "\n- Stay within the character limit\n- For LinkedIn: Professional tone, industry insights, thought leadership\n- For Instagram: Visual storytelling, lifestyle focused, emoji-friendly\n- For X (Twitter): Concise, conversational, trending topics\n- For Facebook: Community-focused, discussion-starting, personal connection\n\nReturn only the post content, no explanations."

/-- OpenAIService.generateSocialMediaPost. In local mode it returns the
mock post directly; in production mode it consults the oracle for the
remote completion and — in its own catch block — falls back to the mock
post when the remote call throws. Every path returns: the function never
throws to its caller. -/
def generateSocialMediaPost (isLocalMode : Bool) (oracle : String → Except String (Option String))
    (content platform : String) (cfg : PlatformConfig) : String :=
  if isLocalMode then generateMockPost content platform cfg
  else
    match oracle platform with
    | .ok t? =>
      match t? with
      | some t => jsTrim t
      | none => ""
    | .error _ => generateMockPost content platform cfg

/-- Template-literal coercion of the request's content value as it enters
the mock-post text. The chat handler only ever passes the validated
`content` field, a string in every modelled scenario; other values are
rendered via their JSON serialization. -/
def jsStr (v : Json) : String :=
  match v with
  | .str s => s
  | v => v.stringify

/-! ## The `chat` HTTP handler -/

/-- The awaited generation call as the chat handler sees it: a value
(`.ok`) or a thrown exception (`.error`, caught per platform). -/
def ChatService :=
  Json → String → PlatformConfig → Except String String

/-- The chat handler's view of OpenAIService.generateSocialMediaPost:
because the service catches its own failures and returns the mock
fallback, the call always produces a value and never throws. -/
def openAIServiceOf (isLocalMode : Bool)
    (oracle : String → Except String (Option String)) : ChatService :=
  fun content platform cfg =>
    .ok (generateSocialMediaPost isLocalMode oracle (jsStr content) platform cfg)

/-- The `platformConfigs[platform]` lookup on a raw array element: only a
string naming a configured platform yields a config. -/
def configLookup (x : Json) : Option (String × PlatformConfig) :=
  match x with
  | .str s => (apiPlatformConfigs s).map fun c => (s, c)
  | _ => none

/-- JavaScript object property assignment `posts[k] = v`: an existing key
keeps its position and gets the new value, a new key is appended. -/
def postsInsert (m : List (String × String)) (k v : String) : List (String × String) :=
  if m.any (fun e => e.1 = k) then m.map (fun e => if e.1 = k then (k, v) else e)
  else m ++ [(k, v)]

/-- The chat handler's per-platform loop. Unknown platforms are skipped
(`continue`); for a known platform the generation call is made, and a
thrown error is caught and recorded as an inline error string. The second
component accumulates the elements for which the generation capability was
invoked. -/
def chatLoop (svc : ChatService) (content : Json) :
    List Json → List (String × String) → List Json → List (String × String) × List Json
  | [], posts, invoked => (posts, invoked)
  | x :: xs, posts, invoked =>
    match configLookup x with
    | none => chatLoop svc content xs posts invoked
    | some (name, cfg) =>
      match svc content name cfg with
      | .ok post => chatLoop svc content xs (postsInsert posts name post) (invoked ++ [x])
      | .error e =>
        chatLoop svc content xs
          (postsInsert posts name ("Error generating post for " ++ name ++ ": " ++ e))
          (invoked ++ [x])

/-- The chat handler's validation predicate:
`!content || !platforms || !Array.isArray(platforms) || platforms.length === 0`
negated. -/
def chatValid (content platforms : Json) : Bool :=
  content.truthy && (match platforms with | .arr xs => !xs.isEmpty | _ => false)

/-- The `chat` HTTP handler for a parsed POST body `{content, platforms,
isUrl}` (missing fields are modelled as `null`, which validates
identically to `undefined`). Returns the response together with the list
of platform elements for which the generation capability was invoked.
`now` stands for `new Date().toISOString()`. -/
def chatHandler (svc : ChatService) (now : String) (content platforms isUrl : Json) :
    HttpResponse × List Json :=
  if chatValid content platforms then
    let xs := match platforms with | .arr xs => xs | _ => []
    let (posts, invoked) := chatLoop svc content xs [] []
    ({ status := 200,
       body := .obj [("success", .bool true),
                     ("posts", .obj (posts.map fun e => (e.1, Json.str e.2))),
                     ("metadata", .obj [("timestamp", .str now), ("isUrl", isUrl),
                                        ("platformCount", .num xs.length)])] },
     invoked)
  else
    ({ status := 400,
       body := .obj [("error", .str "Missing required fields: content and platforms array")] },
     [])

/-- The posts-map entry the loop records for a known platform: the
generated post, or the inline error string when the service throws. -/
def chatEntry (svc : ChatService) (content : Json) (p : String) (cfg : PlatformConfig) : String :=
  match svc content p cfg with
  | .ok post => post
  | .error e => "Error generating post for " ++ p ++ ": " ++ e

/-- The entry for platform name `p`, resolving its config. -/
def chatEntryFor (svc : ChatService) (content : Json) (p : String) : String :=
  match apiPlatformConfigs p with
  | some cfg => chatEntry svc content p cfg
  | none => ""

/-! ## The `extract-url` HTTP handler (`src/api/src/functions/extract-url.js`)

`new URL(url)` (the WHATWG parser, a platform builtin) is passed in as an
oracle `urlParse : String → Option String` returning the hostname of a
well-formed URL, and the network fetch as a `FetchOutcome`. The string
processing of the handler — title/description pattern matches, tag
stripping, whitespace normalization, truncation — is embedded below. The
regex matchers realize the source patterns as first-occurrence scanners;
the engine's backtracking order inside a single `<meta>` tag (observable
only with repeated attributes) is not reproduced, and no theorem depends
on it. -/

/-- Case-insensitive prefix match: the rest of `s` after consuming `pat`,
if `pat` is a (case-insensitive) prefix. -/
def matchCI : List Char → List Char → Option (List Char)
  | [], s => some s
  | _ :: _, [] => none
  | p :: ps, c :: cs => if p.toLower = c.toLower then matchCI ps cs else none

/-- Consume the (non-`>`) characters matched by `[^>]*` and the following
`>`; `none` when no `>` remains. -/
def skipUntilGt : List Char → Option (List Char)
  | [] => none
  | c :: cs => if c = '>' then some cs else skipUntilGt cs

/-- The rest of the input after the first case-insensitive occurrence of
`pat`, scanning left to right. -/
def findCISub (pat : List Char) : List Char → Option (List Char)
  | [] => matchCI pat []
  | c :: cs =>
    match matchCI pat (c :: cs) with
    | some r => some r
    | none => findCISub pat cs

/-- Attempt the title pattern `<title[^>]*>([^<]+)<\/title>` (case
insensitive) at the head of the input, returning the capture. -/
def titleMatchAt (s : List Char) : Option String :=
  match matchCI "<title".toList s with
  | none => none
  | some r1 =>
    match skipUntilGt r1 with
    | none => none
    | some r2 =>
      let (cap, r3) := r2.span (fun c => c != '<')
      if cap.isEmpty then none
      else
        match matchCI "</title>".toList r3 with
        | none => none
        | some _ => some (String.mk cap)

/-- First match of the title pattern anywhere in the input. -/
def findTitle : List Char → Option String
  | [] => none
  | c :: cs =>
    match titleMatchAt (c :: cs) with
    | some t => some t
    | none => findTitle cs

/-- `html.match(/<title[^>]*>([^<]+)<\/title>/i)` followed by
`titleMatch ? titleMatch[1].trim() : ''`. -/
def extractTitle (html : String) : String :=
  match findTitle html.toList with
  | some t => jsTrim t
  | none => ""

/-- Attempt the meta-description pattern
`<meta[^>]*name=["']description["'][^>]*content=["']([^"']*)["'][^>]*>`
(case insensitive) at the head of the input: a `<meta` tag closed by `>`
whose attribute text contains `name=<quote>description<quote>` followed by
`content=<quote>`, capturing up to the closing quote. -/
def metaDescAt (s : List Char) : Option String :=
  match matchCI "<meta".toList s with
  | none => none
  | some r1 =>
    let (tag, rest) := r1.span (fun c => c != '>')
    match rest with
    | [] => none
    | _ :: _ =>
      match findCISub "name=".toList tag with
      | none => none
      | some (q1 :: r2) =>
        if q1 = '"' ∨ q1 = '\'' then
          match matchCI "description".toList r2 with
          | some (q2 :: r3) =>
            if q2 = '"' ∨ q2 = '\'' then
              match findCISub "content=".toList r3 with
              | some (q3 :: r4) =>
                if q3 = '"' ∨ q3 = '\'' then
                  let (cap, r5) := r4.span (fun c => c != '"' && c != '\'')
                  match r5 with
                  | _ :: _ => some (String.mk cap)
                  | [] => none
                else none
              | _ => none
            else none
          | _ => none
        else none
      | some [] => none

/-- First match of the meta-description pattern anywhere in the input. -/
def findMetaDesc : List Char → Option String
  | [] => none
  | c :: cs =>
    match metaDescAt (c :: cs) with
    | some d => some d
    | none => findMetaDesc cs

/-- The meta-description extraction with the source's
`descMatch ? descMatch[1].trim() : ''`. -/
def extractMetaDesc (html : String) : String :=
  match findMetaDesc html.toList with
  | some d => jsTrim d
  | none => ""

/-- Remove every lazily-closed block `<tag[^>]*>[\s\S]*?<\/tag>` (global,
case insensitive), scanning left to right. `fuel` bounds the recursion by
the input length. -/
def stripBlocksAux (openTag closeTag : List Char) : Nat → List Char → List Char
  | 0, s => s
  | _, [] => []
  | fuel + 1, c :: cs =>
    match matchCI openTag (c :: cs) with
    | some r1 =>
      match skipUntilGt r1 with
      | some r2 =>
        match findCISub closeTag r2 with
        | some r3 => stripBlocksAux openTag closeTag fuel r3
        | none => c :: stripBlocksAux openTag closeTag fuel cs
      | none => c :: stripBlocksAux openTag closeTag fuel cs
    | none => c :: stripBlocksAux openTag closeTag fuel cs

/-- Remove `<tag ...> ... </tag>` blocks for the given tag name. -/
def stripBlocks (tag : String) (s : List Char) : List Char :=
  stripBlocksAux ("<" ++ tag).toList ("</" ++ tag ++ ">").toList (s.length + 1) s

/-- Replace every `<[^>]*>` tag with a single space (an unclosed `<` is
left in place, as the pattern cannot match it). -/
def removeTagsAux : Nat → List Char → List Char
  | 0, s => s
  | _, [] => []
  | fuel + 1, c :: cs =>
    if c = '<' then
      match skipUntilGt cs with
      | some r => ' ' :: removeTagsAux fuel r
      | none => c :: removeTagsAux fuel cs
    else c :: removeTagsAux fuel cs

/-- Replace every whitespace run with a single space (`\s+` → `' '`). -/
def collapseWsAux : Bool → List Char → List Char
  | _, [] => []
  | prev, c :: cs =>
    if c.isWhitespace then
      if prev then collapseWsAux true cs else ' ' :: collapseWsAux true cs
    else c :: collapseWsAux false cs

/-- The handler's text pipeline: drop script blocks, drop style blocks,
replace tags with spaces, normalize whitespace, trim. -/
def stripHtml (html : String) : String :=
  let s0 := html.toList
  let s1 := stripBlocks "script" s0
  let s2 := stripBlocks "style" s1
  let s3 := removeTagsAux (s2.length + 1) s2
  let s4 := collapseWsAux false s3
  jsTrim (String.mk s4)

/-- Outcome of `fetch(url, {headers, signal})`: a rejection (network
error, or the 10-second AbortSignal timeout) or a response with its `ok`
flag, status, status text and body text. -/
inductive FetchOutcome where
  | fail (msg : String)
  | resp (ok : Bool) (status : Nat) (statusText : String) (html : String)

/-- The `extract-url` handler for a request body carrying the given `url`
string (`!url` is the empty-string test; a body that fails to parse, or a
non-string url value, is outside the model and exercised by no claim).
`now` stands for `new Date().toISOString()`. -/
def extractUrlHandler (url : String) (urlParse : String → Option String)
    (fetch : FetchOutcome) (now : String) : HttpResponse :=
  if url = "" then
    { status := 400, body := .obj [("error", .str "URL is required")] }
  else
    match urlParse url with
    | none => { status := 400, body := .obj [("error", .str "Invalid URL format")] }
    | some hostname =>
      match fetch with
      | .fail msg =>
        { status := 400,
          body := .obj [("error", .str "Failed to fetch URL content"), ("message", .str msg)] }
      | .resp ok status statusText html =>
        if !ok then
          { status := 400,
            body := .obj [("error",
              .str ("Failed to fetch URL: " ++ toString status ++ " " ++ statusText))] }
        else
          let title := extractTitle html
          let description := extractMetaDesc html
          let content0 := stripHtml html
          let content :=
            if utf16Len content0 > 1500 then utf16Take content0 1500 ++ "..." else content0
          let extractedContent :=
            (if title ≠ "" then "Title: " ++ title ++ "\n\n" else "")
            ++ (if description ≠ "" then "Description: " ++ description ++ "\n\n" else "")
            ++ (if content ≠ "" then "Content: " ++ content else "")
          let extractedContent :=
            if jsTrim extractedContent = "" then
              "Content from " ++ hostname ++ ": Unable to extract meaningful content from this page."
            else extractedContent
          { status := 200,
            body := .obj [("success", .bool true), ("url", .str url),
              ("extractedContent", .str (jsTrim extractedContent)),
              ("metadata", .obj [("title", .str title), ("description", .str description),
                ("hostname", .str hostname), ("contentLength", .num (utf16Len content)),
                ("timestamp", .str now)])] }

/-! ## The client data-sync hook (`useAzureData` / `useKV`)

The hook runs on the single-threaded UI event loop; suspension happens
only at the awaited network calls. It is embedded as a state machine: the
synchronous segments of the source are the steps, and each awaited
promise's resolution is an event carrying the outcome. `localStorage` is a
browser-level string map written through `JSON.stringify` and read back
through `JSON.parse`; on the modelled `Json` values that round-trip is
the identity, so the cache holds the values directly (the effect's
`JSON.stringify(a) === JSON.stringify(b)` comparison is still taken on the
serialized forms). -/

/-- `getLocalStorageValue(key, defaultValue)`:
`item ? JSON.parse(item) : defaultValue`. -/
def getLocalStorageValue (cache : Store) (key : String) (defaultValue : Json) : Json :=
  match cache.get key with
  | some v => v
  | none => defaultValue

/-- `setLocalStorageValue(key, value)`. -/
def setLocalStorageValue (cache : Store) (key : String) (v : Json) : Store :=
  cache.set key v

/-- State of one mounted `useAzureData` instance. `fetchCount` is
instrumentation counting the remote reads the instance has issued; it is
not part of the source's state. -/
structure HookState where
  key : String
  userId : String
  defaultValue : Json
  data : Json
  loading : Bool
  error : Option String
  hasTriedApi : Bool
  fetchCount : Nat
deriving Repr, DecidableEq

/-- Hook initialization: `useState(() => getLocalStorageValue(key,
defaultValue))` seeds the value synchronously from the local cache;
`loading` starts false, `error` null, `hasTriedApi` false. -/
def initHook (key userId : String) (defaultValue : Json) (cache : Store) : HookState :=
  { key := key, userId := userId, defaultValue := defaultValue,
    data := getLocalStorageValue cache key defaultValue,
    loading := false, error := none, hasTriedApi := false, fetchCount := 0 }

/-- The synchronous prefix of `saveData(newData)`: clear the error,
optimistically set the in-memory state and the local cache — all before
the remote POST is even issued. -/
def saveDataLocal (h : HookState) (cache : Store) (newData : Json) : HookState × Store :=
  ({ h with error := none, data := newData }, setLocalStorageValue cache h.key newData)

/-- Outcome of the awaited remote write in `saveData`: the fetch rejects,
the response is not ok (`throw` in the try block), the body has
`success: false` (also a `throw`), or everything succeeds. -/
inductive WriteOutcome where
  | netError (msg : String)
  | httpError (statusText : String)
  | apiFail
  | ok
deriving Repr, DecidableEq

/-- The continuation of `saveData` after the awaited write resolves. All
three failure shapes land in the catch block, which only logs
(`console.warn`) — no state or cache mutation, in particular no rollback
of the optimistic write; the success path performs no further state
change either. -/
def saveDataFinish (h : HookState) (cache : Store) (r : WriteOutcome) : HookState × Store :=
  match r with
  | .netError _ => (h, cache)
  | .httpError _ => (h, cache)
  | .apiFail => (h, cache)
  | .ok => (h, cache)

/-- `useKV`'s `setDataWrapper`: a function argument is resolved against
the current in-memory value synchronously, a plain value is passed
through; either way `setData` (i.e. `saveData`) runs. -/
def useKVSet (h : HookState) (cache : Store) (upd : Json ⊕ (Json → Json)) : HookState × Store :=
  match upd with
  | .inl v => saveDataLocal h cache v
  | .inr f => saveDataLocal h cache (f h.data)

/-- The synchronous prefix of `loadData`: bail out if the latch is set
(`if (hasTriedApi) return`), otherwise set loading, clear the error, set
the latch, and issue the remote read (counted by `fetchCount`). -/
def loadDataStart (h : HookState) : HookState :=
  if h.hasTriedApi then h
  else { h with loading := true, error := none, hasTriedApi := true,
                fetchCount := h.fetchCount + 1 }

/-- The continuation of `loadData` after the awaited read resolves.
A rejection or a non-ok response lands in the catch block: fall back to
the locally cached value (or default) and clear the error; `finally`
clears `loading`. On a parsed body, `result.success && result.value !==
null` accepts the remote value into state and cache, anything else resets
to the default. (A body without a `value` field would put `undefined`
into state in JavaScript; the data endpoint always sends the field, and
the model routes that impossible case to the default branch.) -/
def loadDataFinish (h : HookState) (cache : Store) (r : Except String Json) : HookState × Store :=
  match r with
  | .error _ =>
    ({ h with data := getLocalStorageValue cache h.key h.defaultValue,
              error := none, loading := false }, cache)
  | .ok body =>
    match body.field "value" with
    | some v =>
      if (match body.field "success" with | some s => s.truthy | none => false) = true
          ∧ v ≠ Json.null then
        ({ h with data := v, loading := false }, setLocalStorageValue cache h.key v)
      else
        ({ h with data := h.defaultValue, loading := false }, cache)
    | none => ({ h with data := h.defaultValue, loading := false }, cache)

/-- The mount/update effect: only when the latch is clear and the cached
value serializes identically to the default does it call `loadData`. -/
def effectRun (h : HookState) (cache : Store) : HookState :=
  let currentValue := getLocalStorageValue cache h.key h.defaultValue
  if ¬h.hasTriedApi
      ∧ Json.stringify currentValue = Json.stringify h.defaultValue then
    loadDataStart h
  else h

/-- Events in the life of a mounted hook instance: an effect execution
(mount or any later dependency-triggered re-run), the resolution of the
remote read, a `saveData` call, and the resolution of the remote write. -/
inductive HookEvent where
  | effect
  | readDone (r : Except String Json)
  | save (v : Json)
  | saveDone (r : WriteOutcome)

/-- One step of the hook state machine. -/
def hookStep : HookState × Store → HookEvent → HookState × Store
  | (h, cache), .effect => (effectRun h cache, cache)
  | (h, cache), .readDone r => loadDataFinish h cache r
  | (h, cache), .save v => saveDataLocal h cache v
  | (h, cache), .saveDone r => saveDataFinish h cache r

/-- Run the hook over a sequence of events. -/
def hookRun (s : HookState × Store) : List HookEvent → HookState × Store
  | [] => s
  | e :: es => hookRun (hookStep s e) es

/-- The latch invariant: the number of remote reads issued is bounded by
the `hasTriedApi` latch. -/
def fetchInv (s : HookState × Store) : Prop :=
  s.1.fetchCount ≤ (if s.1.hasTriedApi then 1 else 0)

/-! ## Helper lemmas -/

theorem Store.get_removeKey_self (st : Store) (k : String) :
    (st.removeKey k).get k = none := by
  induction st with
  | nil => rfl
  | cons e rest ih =>
    obtain ⟨ek, ev⟩ := e
    by_cases he : ek = k
    · simpa [Store.removeKey, he] using ih
    · simpa [Store.removeKey, Store.get, he] using ih

theorem Store.get_removeKey_ne (st : Store) (k k' : String) (h : k' ≠ k) :
    (st.removeKey k).get k' = st.get k' := by
  induction st with
  | nil => rfl
  | cons e rest ih =>
    obtain ⟨ek, ev⟩ := e
    by_cases he : ek = k
    · subst he
      have hne : ¬ek = k' := fun e => h e.symm
      simpa [Store.removeKey, Store.get, hne] using ih
    · by_cases hk' : ek = k'
      · simp [Store.removeKey, Store.get, he, hk', h]
      · simpa [Store.removeKey, Store.get, he, hk'] using ih

theorem Store.get_set_self (st : Store) (k : String) (v : Json) :
    (st.set k v).get k = some v := by
  simp [Store.get, Store.set]

theorem Store.get_set_ne (st : Store) (k k' : String) (v : Json) (h : k' ≠ k) :
    (st.set k v).get k' = st.get k' := by
  have : ¬k = k' := fun e => h e.symm
  simp [Store.get, Store.set, this, Store.get_removeKey_ne st k k' h]

theorem Store.get_del_self (st : Store) (k : String) :
    (st.del k).get k = none :=
  Store.get_removeKey_self st k

/-- Collapsing with `|| null` twice is the same as once. -/
theorem jsOrNull_idem (v : Json) : jsOrNull (jsOrNull v) = jsOrNull v := by
  by_cases h : v.truthy
  · simp [jsOrNull, h]
  · have h1 : jsOrNull v = Json.null := if_neg (by simpa using h)
    rw [h1]
    rfl

/-- Reading the `value` field of a three-field success envelope. -/
theorem field_value_envelope (a b x : Json) :
    (Json.obj [("success", a), ("key", b), ("value", x)]).field "value" = some x := rfl

/-- Reading the `deleted` field of a three-field success envelope. -/
theorem field_deleted_envelope (a b x : Json) :
    (Json.obj [("success", a), ("key", b), ("deleted", x)]).field "deleted" = some x := rfl

/-- Inserting a fresh key appends. -/
theorem postsInsert_not_mem (m : List (String × String)) (k v : String)
    (h : k ∉ m.map Prod.fst) : postsInsert m k v = m ++ [(k, v)] := by
  have : m.any (fun e => e.1 = k) = false := by
    simp only [List.any_eq_false, decide_eq_true_eq]
    intro e he hek
    exact h (List.mem_map.mpr ⟨e, he, hek⟩)
  simp [postsInsert, this]

/-- Running the loop over distinct configured platform names extends the
accumulated posts map by exactly one entry per name, in order. -/
theorem chatLoop_eq (svc : ChatService) (content : Json) :
    ∀ (ps : List String) (posts : List (String × String)) (invoked : List Json),
      (∀ p ∈ ps, (apiPlatformConfigs p).isSome) → ps.Nodup →
      (∀ p ∈ ps, p ∉ posts.map Prod.fst) →
      (chatLoop svc content (ps.map Json.str) posts invoked).1
        = posts ++ ps.map fun q => (q, chatEntryFor svc content q)
  | [], posts, invoked, _, _, _ => by simp [chatLoop]
  | p :: ps, posts, invoked, hcfg, hnd, hfresh => by
    obtain ⟨cfg, hc⟩ : ∃ cfg, apiPlatformConfigs p = some cfg := by
      have := hcfg p (by simp)
      exact Option.isSome_iff_exists.mp this
    have hnd' := List.nodup_cons.mp hnd
    have hfresh_p : p ∉ posts.map Prod.fst := hfresh p (by simp)
    have hcfg' : ∀ q ∈ ps, (apiPlatformConfigs q).isSome :=
      fun q hq => hcfg q (List.mem_cons_of_mem p hq)
    have hfresh' : ∀ (v : String), ∀ q ∈ ps, q ∉ ((posts ++ [(p, v)]).map Prod.fst) := by
      intro v q hq
      simp only [List.map_append, List.mem_append, List.map_cons, List.map_nil,
        List.mem_singleton, not_or]
      refine ⟨hfresh q (List.mem_cons_of_mem p hq), ?_⟩
      intro hqp
      exact hnd'.1 (hqp ▸ hq)
    have hentry : chatEntryFor svc content p = chatEntry svc content p cfg := by
      simp [chatEntryFor, hc]
    cases hsvc : svc content p cfg with
    | ok post =>
      have hstep : chatLoop svc content ((p :: ps).map Json.str) posts invoked
          = chatLoop svc content (ps.map Json.str) (posts ++ [(p, post)])
              (invoked ++ [Json.str p]) := by
        simp [chatLoop, configLookup, hc, hsvc, postsInsert_not_mem posts p post hfresh_p]
      rw [hstep,
        chatLoop_eq svc content ps (posts ++ [(p, post)]) (invoked ++ [Json.str p])
          hcfg' hnd'.2 (hfresh' post)]
      simp [hentry, chatEntry, hsvc]
    | error e =>
      have hstep : chatLoop svc content ((p :: ps).map Json.str) posts invoked
          = chatLoop svc content (ps.map Json.str)
              (posts ++ [(p, "Error generating post for " ++ p ++ ": " ++ e)])
              (invoked ++ [Json.str p]) := by
        simp [chatLoop, configLookup, hc, hsvc,
          postsInsert_not_mem posts p ("Error generating post for " ++ p ++ ": " ++ e) hfresh_p]
      rw [hstep,
        chatLoop_eq svc content ps
          (posts ++ [(p, "Error generating post for " ++ p ++ ": " ++ e)])
          (invoked ++ [Json.str p]) hcfg' hnd'.2
          (hfresh' ("Error generating post for " ++ p ++ ": " ++ e))]
      simp [hentry, chatEntry, hsvc]

/-- The loop invokes the generation capability exactly for the configured
elements, in order. -/
theorem chatLoop_invoked (svc : ChatService) (content : Json) :
    ∀ (xs : List Json) (posts : List (String × String)) (invoked : List Json),
      (chatLoop svc content xs posts invoked).2
        = invoked ++ xs.filter fun x => (configLookup x).isSome
  | [], posts, invoked => by simp [chatLoop]
  | x :: xs, posts, invoked => by
    cases hx : configLookup x with
    | none => simp [chatLoop, hx, chatLoop_invoked svc content xs posts invoked,
        List.filter_cons, hx]
    | some pc =>
      obtain ⟨name, cfg⟩ := pc
      cases hsvc : svc content name cfg with
      | ok post =>
        simp [chatLoop, hx, hsvc, chatLoop_invoked svc content xs _ _,
          List.filter_cons]
      | error e =>
        simp [chatLoop, hx, hsvc, chatLoop_invoked svc content xs _ _,
          List.filter_cons]

/-- Looking a mapped key up in a key-tagged map. -/
theorem lookup_map_self {β : Type} (f : String → β) :
    ∀ (ps : List String) (p : String), p ∈ ps →
      List.lookup p (ps.map fun q => (q, f q)) = some (f p)
  | [], p, h => by cases h
  | q :: ps, p, h => by
    by_cases hpq : p = q
    · simp [List.lookup, hpq]
    · have hmem : p ∈ ps := by
        cases List.mem_cons.mp h with
        | inl h' => exact absurd h' hpq
        | inr h' => exact h'
      have hbq : (p == q) = false := by simpa using hpq
      simp only [List.map_cons, List.lookup, hbq]
      exact lookup_map_self f ps p hmem

/-! ## Claim C1 — data POST / GET round-trip -/

/-- C1, counterexample: the round-trip is NOT the identity for every
JSON-serializable value. Storing `false` under a key and reading it back
yields `value: null`, not `false`, because both the handler and the mock
store coerce with `|| null`. -/
theorem claim_C1_counterexample :
    ((dataHandler .get (some "k") (some "default") none
        (dataHandler .post (some "k") (some "default")
          (some (Json.obj [("value", Json.bool false)])) Store.empty).2).1).body.field "value"
      = some Json.null
    ∧ Json.null ≠ Json.bool false := by
  constructor
  · rfl
  · decide

/-- C1 (amended): for every truthy value X — which includes every nested
object and array — a data POST of `{value: X}` for key k followed by a data
GET for k returns a response whose value field is structurally equal to X,
and the POST itself succeeds with status 200. Falsy X (false, 0, "") is
stored but reads back as null. -/
theorem claim_C1 (k u : String) (v : Json) (st : Store)
    (hk : k ≠ "") (hu : u ≠ "") (hv : v.truthy = true) :
    ((dataHandler .post (some k) (some u) (some (Json.obj [("value", v)])) st).1).status = 200
    ∧ ((dataHandler .get (some k) (some u) none
          (dataHandler .post (some k) (some u) (some (Json.obj [("value", v)])) st).2).1).body.field "value"
        = some v := by
  have hbody : (Json.obj [("value", v)]).field "value" = some v := by
    simp [Json.field, List.lookup]
  constructor
  · simp [dataHandler, hk, hu, hbody, setValue]
  · simp [dataHandler, hk, hu, hbody, setValue, getValue, Store.get_set_self, jsOrNull, hv,
      field_value_envelope]

/-- C1 witness: the round-trip at a concrete nested object value. -/
theorem claim_C1_witness :
    ((dataHandler .post (some "saved-generations") (some "default")
        (some (Json.obj [("value", Json.obj [("a", Json.arr [Json.num 1, Json.str "x"])])]))
        Store.empty).1).status = 200
    ∧ ((dataHandler .get (some "saved-generations") (some "default") none
          (dataHandler .post (some "saved-generations") (some "default")
            (some (Json.obj [("value", Json.obj [("a", Json.arr [Json.num 1, Json.str "x"])])]))
            Store.empty).2).1).body.field "value"
        = some (Json.obj [("a", Json.arr [Json.num 1, Json.str "x"])]) :=
  claim_C1 "saved-generations" "default" (Json.obj [("a", Json.arr [Json.num 1, Json.str "x"])])
    Store.empty (by decide) (by decide) (by decide)

/-! ## Claim C2 — extract-url fetch failure -/

/-- C2, counterexample: for a well-formed URL whose fetch times out (the
abort surfaces as a rejected fetch), the handler returns a 400 error
response — `{error: 'Failed to fetch URL content'}` with no success flag
and no content — not a success with a fallback placeholder. -/
theorem claim_C2_counterexample :
    (extractUrlHandler "https://example.com"
        (fun u => if u = "https://example.com" then some "example.com" else none)
        (.fail "The operation was aborted due to timeout") "t").status = 400
    ∧ (extractUrlHandler "https://example.com"
        (fun u => if u = "https://example.com" then some "example.com" else none)
        (.fail "The operation was aborted due to timeout") "t").body.field "success" = none
    ∧ (extractUrlHandler "https://example.com"
        (fun u => if u = "https://example.com" then some "example.com" else none)
        (.fail "The operation was aborted due to timeout") "t").body.field "error"
      = some (Json.str "Failed to fetch URL content") := by
  refine ⟨rfl, rfl, rfl⟩

/-- C2 (amended): for every syntactically well-formed URL, a fetch failure
or timeout produces a 400 error response (`Failed to fetch URL content`
with the thrown message), never a success; the fallback placeholder string
`Content from <hostname>: ...` is returned — inside a success response —
only when the fetch itself succeeds but the extraction comes up empty. -/
theorem claim_C2 (url hostname msg now : String) (urlParse : String → Option String)
    (hu : url ≠ "") (hp : urlParse url = some hostname) :
    ((extractUrlHandler url urlParse (.fail msg) now).status = 400
      ∧ (extractUrlHandler url urlParse (.fail msg) now).body.field "error"
        = some (Json.str "Failed to fetch URL content")
      ∧ (extractUrlHandler url urlParse (.fail msg) now).body.field "message"
        = some (Json.str msg)
      ∧ (extractUrlHandler url urlParse (.fail msg) now).body.field "success" = none)
    ∧ (∀ (status : Nat) (statusText html : String),
        extractTitle html = "" → extractMetaDesc html = "" → stripHtml html = "" →
        (extractUrlHandler url urlParse (.resp true status statusText html) now).status = 200
        ∧ (extractUrlHandler url urlParse (.resp true status statusText html) now).body.field
            "extractedContent"
          = some (Json.str (jsTrim
              ("Content from " ++ hostname
                ++ ": Unable to extract meaningful content from this page.")))) := by
  constructor
  · unfold extractUrlHandler
    rw [if_neg hu, hp]
    exact ⟨rfl, rfl, rfl, rfl⟩
  · intro status statusText html h1 h2 h3
    unfold extractUrlHandler
    rw [if_neg hu, hp]
    simp only [h1, h2, h3]
    exact ⟨rfl, rfl⟩

/-- C2 witness: the fetch-failure branch and the empty-extraction
placeholder branch at concrete inputs. -/
theorem claim_C2_witness :
    ((extractUrlHandler "https://x.com" (fun _ => some "x.com") (.fail "timeout") "t").status = 400
      ∧ (extractUrlHandler "https://x.com" (fun _ => some "x.com") (.fail "timeout") "t").body.field "error"
        = some (Json.str "Failed to fetch URL content")
      ∧ (extractUrlHandler "https://x.com" (fun _ => some "x.com") (.fail "timeout") "t").body.field "message"
        = some (Json.str "timeout")
      ∧ (extractUrlHandler "https://x.com" (fun _ => some "x.com") (.fail "timeout") "t").body.field "success" = none)
    ∧ ((extractUrlHandler "https://x.com" (fun _ => some "x.com") (.resp true 200 "OK" "") "t").status = 200
      ∧ (extractUrlHandler "https://x.com" (fun _ => some "x.com") (.resp true 200 "OK" "") "t").body.field
          "extractedContent"
        = some (Json.str (jsTrim
            ("Content from " ++ "x.com"
              ++ ": Unable to extract meaningful content from this page.")))) :=
  ⟨(claim_C2 "https://x.com" "x.com" "timeout" "t" (fun _ => some "x.com") (by decide) rfl).1,
   (claim_C2 "https://x.com" "x.com" "timeout" "t" (fun _ => some "x.com") (by decide) rfl).2
     200 "OK" "" rfl rfl rfl⟩

/-! ## Claim C3 — chat validation -/

/-- C3, counterexample: a request whose platforms array contains only the
unknown identifier "myspace" is NOT rejected as a validation error: the
handler returns 200 success (with an empty posts map), skipping the
unknown platform, and never invokes the generation capability for it. -/
theorem claim_C3_counterexample :
    ((chatHandler (fun _ _ _ => .ok "generated") "2024-01-01T00:00:00.000Z"
        (Json.str "Hello") (Json.arr [Json.str "myspace"]) (Json.bool false)).1).status = 200
    ∧ ((chatHandler (fun _ _ _ => .ok "generated") "2024-01-01T00:00:00.000Z"
        (Json.str "Hello") (Json.arr [Json.str "myspace"]) (Json.bool false)).1).body.field "success"
      = some (Json.bool true)
    ∧ (chatHandler (fun _ _ _ => .ok "generated") "2024-01-01T00:00:00.000Z"
        (Json.str "Hello") (Json.arr [Json.str "myspace"]) (Json.bool false)).2 = [] := by
  refine ⟨rfl, rfl, rfl⟩

/-- C3 (amended): the chat handler returns a 400 validation error, without
invoking the generation capability, exactly when `content` is falsy or
`platforms` is not a non-empty array; unknown platform identifiers inside
the array are not rejected but silently skipped — the generation
capability is only ever invoked for elements with a configured platform. -/
theorem claim_C3 (svc : ChatService) (now : String) (content platforms isUrl : Json) :
    ((((chatHandler svc now content platforms isUrl).1).status = 400
        ∧ (chatHandler svc now content platforms isUrl).2 = [])
      ↔ chatValid content platforms = false)
    ∧ ((chatHandler svc now content platforms isUrl).2).all
        (fun x => (configLookup x).isSome) = true := by
  by_cases hv : chatValid content platforms
  · constructor
    · simp [chatHandler, hv]
    · simp only [chatHandler, hv, if_true]
      rw [chatLoop_invoked]
      simp only [List.nil_append, List.all_eq_true]
      intro x hx
      exact (List.mem_filter.mp hx).2
  · simp [chatHandler, hv]

/-- C3 witness: at the concrete invalid input (empty content) the handler
returns 400 without invoking the generation capability. -/
theorem claim_C3_witness :
    ((((chatHandler (fun _ _ _ => .ok "p") "t" (Json.str "")
          (Json.arr [Json.str "linkedin"]) Json.null).1).status = 400
        ∧ (chatHandler (fun _ _ _ => .ok "p") "t" (Json.str "")
            (Json.arr [Json.str "linkedin"]) Json.null).2 = [])
      ↔ chatValid (Json.str "") (Json.arr [Json.str "linkedin"]) = false)
    ∧ ((chatHandler (fun _ _ _ => .ok "p") "t" (Json.str "")
          (Json.arr [Json.str "linkedin"]) Json.null).2).all
        (fun x => (configLookup x).isSome) = true :=
  claim_C3 (fun _ _ _ => .ok "p") "t" (Json.str "") (Json.arr [Json.str "linkedin"]) Json.null

/-! ## Claim C4 — one posts entry per requested platform -/

/-- Core fact shared by the per-platform claims: a valid request over
distinct configured platforms yields a 200 success whose posts map has
exactly the requested platforms as keys, in request order, each carrying
the entry the loop records for it. -/
theorem chatHandler_valid_posts (svc : ChatService) (now : String) (c : String)
    (ps : List String) (isUrl : Json) (hc : c ≠ "") (hne : ps ≠ []) (hnd : ps.Nodup)
    (hcfg : ∀ p ∈ ps, (apiPlatformConfigs p).isSome) :
    ((chatHandler svc now (Json.str c) (Json.arr (ps.map Json.str)) isUrl).1).status = 200
    ∧ ((chatHandler svc now (Json.str c) (Json.arr (ps.map Json.str)) isUrl).1).body.field "posts"
      = some (Json.obj (ps.map fun q => (q, Json.str (chatEntryFor svc (Json.str c) q)))) := by
  have hvalid : chatValid (Json.str c) (Json.arr (ps.map Json.str)) = true := by
    simp [chatValid, Json.truthy, hc, hne]
  have hloop := chatLoop_eq svc (Json.str c) ps [] []
    hcfg hnd (by simp)
  constructor
  · simp [chatHandler, hvalid]
  · simp only [chatHandler, hvalid, if_true, hloop, List.nil_append]
    simp [Json.field, List.lookup, List.map_map, Function.comp]

/-- C4: for every non-empty content string and every non-empty duplicate-free
list of configured platform identifiers, the chat response is a 200 success
whose posts map has exactly one entry per requested platform, in request
order, and no other entries. -/
theorem claim_C4 (svc : ChatService) (now : String) (c : String) (ps : List String)
    (isUrl : Json) (hc : c ≠ "") (hne : ps ≠ []) (hnd : ps.Nodup)
    (hcfg : ∀ p ∈ ps, (apiPlatformConfigs p).isSome) :
    ((chatHandler svc now (Json.str c) (Json.arr (ps.map Json.str)) isUrl).1).status = 200
    ∧ ((chatHandler svc now (Json.str c) (Json.arr (ps.map Json.str)) isUrl).1).body.field "posts"
      = some (Json.obj (ps.map fun q => (q, Json.str (chatEntryFor svc (Json.str c) q)))) :=
  chatHandler_valid_posts svc now c ps isUrl hc hne hnd hcfg

/-- C4 witness: two platforms, a constant generation service. -/
theorem claim_C4_witness :
    ((chatHandler (fun _ _ _ => .ok "post!") "t" (Json.str "Launch day")
        (Json.arr [Json.str "linkedin", Json.str "twitter"]) (Json.bool false)).1).status = 200
    ∧ ((chatHandler (fun _ _ _ => .ok "post!") "t" (Json.str "Launch day")
        (Json.arr [Json.str "linkedin", Json.str "twitter"]) (Json.bool false)).1).body.field "posts"
      = some (Json.obj [("linkedin", Json.str "post!"), ("twitter", Json.str "post!")]) := by
  have h := claim_C4 (fun _ _ _ => .ok "post!") "t" "Launch day" ["linkedin", "twitter"]
    (Json.bool false) (by decide) (by decide) (by decide)
    (by intro p hp; fin_cases hp <;> decide)
  simpa [chatEntryFor, chatEntry, apiPlatformConfigs] using h

/-! ## Claim C5 — per-platform generation failure -/

/-- C5, counterexample: when the remote generation fails for a platform,
the posts entry is the mock fallback post produced inside the generation
service, not an inline error string — the whole request still succeeds. -/
theorem claim_C5_counterexample :
    ((chatHandler (openAIServiceOf false fun _ => .error "network down") "t"
        (Json.str "Hello") (Json.arr [Json.str "twitter"]) (Json.bool false)).1).status = 200
    ∧ ((chatHandler (openAIServiceOf false fun _ => .error "network down") "t"
        (Json.str "Hello") (Json.arr [Json.str "twitter"]) (Json.bool false)).1).body.field "posts"
      = some (Json.obj [("twitter",
          Json.str "🐦💭 Here's a X (Twitter) post based on: \"Hello\" \n\n[This is a mock response for local development] \n\n#SocialMedia #XTwitter")])
    ∧ ("🐦💭 Here's a X (Twitter) post based on: \"Hello\" \n\n[This is a mock response for local development] \n\n#SocialMedia #XTwitter" : String)
      ≠ "Error generating post for twitter: network down" := by
  refine ⟨rfl, rfl, by decide⟩

/-- C5 (amended): within one chat request over valid platforms, a remote
generation failure for one platform still yields a 200 success response,
and the posts entry for that platform is the mock fallback post produced
by the generation service's own catch block — not an inline error string;
the handler's inline-error branch is unreachable because the service never
throws. -/
theorem claim_C5 (oracle : String → Except String (Option String)) (now : String)
    (c : String) (ps : List String) (isUrl : Json) (p e : String) (cfg : PlatformConfig)
    (hc : c ≠ "") (hne : ps ≠ []) (hnd : ps.Nodup)
    (hcfgs : ∀ q ∈ ps, (apiPlatformConfigs q).isSome)
    (hp : p ∈ ps) (hcfg : apiPlatformConfigs p = some cfg)
    (herr : oracle p = .error e) :
    ((chatHandler (openAIServiceOf false oracle) now (Json.str c)
        (Json.arr (ps.map Json.str)) isUrl).1).status = 200
    ∧ (((chatHandler (openAIServiceOf false oracle) now (Json.str c)
          (Json.arr (ps.map Json.str)) isUrl).1).body.field "posts").bind
        (fun j => j.field p)
      = some (Json.str (generateMockPost c p cfg)) := by
  have h4 := chatHandler_valid_posts (openAIServiceOf false oracle) now c ps isUrl hc hne hnd hcfgs
  refine ⟨h4.1, ?_⟩
  have hent : chatEntryFor (openAIServiceOf false oracle) (Json.str c) p
      = generateMockPost c p cfg := by
    simp [chatEntryFor, hcfg, chatEntry, openAIServiceOf, generateSocialMediaPost, herr, jsStr]
  have hlk : List.lookup p
        (ps.map fun q => (q, Json.str (chatEntryFor (openAIServiceOf false oracle) (Json.str c) q)))
      = some (Json.str (chatEntryFor (openAIServiceOf false oracle) (Json.str c) p)) := by
    simpa using lookup_map_self
      (fun q => Json.str (chatEntryFor (openAIServiceOf false oracle) (Json.str c) q)) ps p hp
  rw [h4.2]
  show List.lookup p
      (ps.map fun q => (q, Json.str (chatEntryFor (openAIServiceOf false oracle) (Json.str c) q)))
    = some (Json.str (generateMockPost c p cfg))
  rw [hlk, hent]

/-- C5 witness: concrete failing oracle over platforms linkedin and
twitter, with the failure on twitter. -/
theorem claim_C5_witness :
    ((chatHandler (openAIServiceOf false fun p => if p = "twitter" then .error "boom" else .ok (some "fine")) "t"
        (Json.str "Hi") (Json.arr [Json.str "linkedin", Json.str "twitter"]) (Json.bool false)).1).status = 200
    ∧ (((chatHandler (openAIServiceOf false fun p => if p = "twitter" then .error "boom" else .ok (some "fine")) "t"
          (Json.str "Hi") (Json.arr [Json.str "linkedin", Json.str "twitter"]) (Json.bool false)).1).body.field "posts").bind
        (fun j => j.field "twitter")
      = some (Json.str (generateMockPost "Hi" "twitter" ⟨"X (Twitter)", "bg-black", 280, "🐦"⟩)) :=
  claim_C5 (fun p => if p = "twitter" then .error "boom" else .ok (some "fine")) "t"
    "Hi" ["linkedin", "twitter"] (Json.bool false) "twitter" "boom"
    ⟨"X (Twitter)", "bg-black", 280, "🐦"⟩
    (by decide) (by decide) (by decide)
    (by intro p hp; fin_cases hp <;> decide)
    (by decide) (by decide) rfl

/-! ## Claim C6 — data DELETE semantics -/

/-- C6: a data DELETE on a key with no stored value returns
`deleted: false`; after a POST stored a value, DELETE returns
`deleted: true`; and a GET issued after that DELETE returns `value: null`. -/
theorem claim_C6 (k u : String) (v : Json) (st : Store)
    (hk : k ≠ "") (hu : u ≠ "") (h0 : st.get (localKey k u) = none) :
    ((dataHandler .delete (some k) (some u) none st).1).body.field "deleted"
        = some (Json.bool false)
    ∧ ((dataHandler .delete (some k) (some u) none
          (dataHandler .post (some k) (some u) (some (Json.obj [("value", v)])) st).2).1).body.field "deleted"
        = some (Json.bool true)
    ∧ ((dataHandler .get (some k) (some u) none
          (dataHandler .delete (some k) (some u) none
            (dataHandler .post (some k) (some u) (some (Json.obj [("value", v)])) st).2).2).1).body.field "value"
        = some Json.null := by
  have hbody : (Json.obj [("value", v)]).field "value" = some v := by
    simp [Json.field, List.lookup]
  refine ⟨?_, ?_, ?_⟩
  · simp [dataHandler, hk, hu, deleteValue, Store.hasKey, h0, field_deleted_envelope]
  · simp [dataHandler, hk, hu, hbody, setValue, deleteValue, Store.hasKey, Store.get_set_self,
      field_deleted_envelope]
  · simp [dataHandler, hk, hu, hbody, setValue, deleteValue, getValue, Store.get_del_self,
      jsOrNull, field_value_envelope]

/-- C6 witness: the DELETE semantics at concrete inputs, starting from the
empty store. -/
theorem claim_C6_witness :
    ((dataHandler .delete (some "prefs") (some "default") none Store.empty).1).body.field "deleted"
        = some (Json.bool false)
    ∧ ((dataHandler .delete (some "prefs") (some "default") none
          (dataHandler .post (some "prefs") (some "default")
            (some (Json.obj [("value", Json.str "x")])) Store.empty).2).1).body.field "deleted"
        = some (Json.bool true)
    ∧ ((dataHandler .get (some "prefs") (some "default") none
          (dataHandler .delete (some "prefs") (some "default") none
            (dataHandler .post (some "prefs") (some "default")
              (some (Json.obj [("value", Json.str "x")])) Store.empty).2).2).1).body.field "value"
        = some Json.null :=
  claim_C6 "prefs" "default" (Json.str "x") Store.empty (by decide) (by decide) (by decide)

/-! ## Claim C7 — optimistic writes are immediate and never rolled back -/

/-- C7: `setValue(k, v)` updates the hook's in-memory value and the local
cache synchronously, before the remote write is issued; and whatever the
remote write's outcome — network failure, HTTP error, `success: false`,
or success — neither the in-memory value nor the cache is rolled back. -/
theorem claim_C7 (h : HookState) (cache : Store) (v : Json) (r : WriteOutcome) :
    ((saveDataLocal h cache v).1).data = v
    ∧ Store.get (saveDataLocal h cache v).2 h.key = some v
    ∧ ((saveDataFinish (saveDataLocal h cache v).1 (saveDataLocal h cache v).2 r).1).data = v
    ∧ Store.get (saveDataFinish (saveDataLocal h cache v).1 (saveDataLocal h cache v).2 r).2 h.key
      = some v
    ∧ useKVSet h cache (Sum.inl v) = saveDataLocal h cache v := by
  cases r <;>
    exact ⟨rfl, Store.get_set_self cache h.key v, rfl,
      Store.get_set_self cache h.key v, rfl⟩

/-! ## Claim C8 — at most one remote read per mount -/

theorem hookStep_fetchInv (s : HookState × Store) (e : HookEvent)
    (hs : fetchInv s) : fetchInv (hookStep s e) := by
  obtain ⟨h, cache⟩ := s
  cases e with
  | effect =>
    simp only [hookStep, fetchInv, effectRun, loadDataStart] at hs ⊢
    by_cases h1 : h.hasTriedApi
    · simp [h1] at hs ⊢
      exact hs
    · by_cases h2 : Json.stringify (getLocalStorageValue cache h.key h.defaultValue)
          = Json.stringify h.defaultValue
      · simp [h1, h2] at hs ⊢
        omega
      · simp [h1, h2] at hs ⊢
        exact hs
  | readDone r =>
    have hl : ((loadDataFinish h cache r).1).fetchCount = h.fetchCount
        ∧ ((loadDataFinish h cache r).1).hasTriedApi = h.hasTriedApi := by
      cases r with
      | error msg => exact ⟨rfl, rfl⟩
      | ok body =>
        simp only [loadDataFinish]
        cases body.field "value" with
        | none => exact ⟨rfl, rfl⟩
        | some v =>
          dsimp only
          exact ⟨by split <;> rfl, by split <;> rfl⟩
    simp only [hookStep, fetchInv, hl.1, hl.2]
    exact hs
  | save v => simpa [hookStep, fetchInv, saveDataLocal] using hs
  | saveDone r =>
    cases r <;> simpa [hookStep, fetchInv, saveDataFinish] using hs

theorem hookRun_fetchInv :
    ∀ (trace : List HookEvent) (s : HookState × Store), fetchInv s → fetchInv (hookRun s trace)
  | [], _, hs => hs
  | e :: es, s, hs => hookRun_fetchInv es (hookStep s e) (hookStep_fetchInv s e hs)

/-- C8: over its entire lifetime — any sequence of effect runs, read and
write completions, and saves — a mounted hook instance issues at most one
remote read. The `hasTriedApi` latch enforces the bound for every initial
cache state, in particular when no meaningful local cache exists. -/
theorem claim_C8 (key userId : String) (defaultValue : Json) (cache : Store)
    (trace : List HookEvent) :
    ((hookRun (initHook key userId defaultValue cache, cache) trace).1).fetchCount ≤ 1 := by
  have hinit : fetchInv (initHook key userId defaultValue cache, cache) := by
    simp [fetchInv, initHook]
  have h := hookRun_fetchInv trace _ hinit
  unfold fetchInv at h
  by_cases hl : ((hookRun (initHook key userId defaultValue cache, cache) trace).1).hasTriedApi
  · simpa [hl] using h
  · simp [hl] at h
    omega



/-! ## Claim C9 — falsy stored values read back as null -/

/-- C9, counterexample: the claim says the GET response's value field
equals the stored value only when that value is truthy, but a stored
`null` is not truthy and the GET response's value field (`null`) equals it
all the same. -/
theorem claim_C9_counterexample :
    ((dataHandler .get (some "k") (some "default") none
        (dataHandler .post (some "k") (some "default")
          (some (Json.obj [("value", Json.null)])) Store.empty).2).1).body.field "value"
      = some Json.null
    ∧ ((dataHandler .post (some "k") (some "default")
          (some (Json.obj [("value", Json.null)])) Store.empty).2).get (localKey "k" "default")
      = some Json.null
    ∧ Json.null.truthy = false := by
  refine ⟨rfl, rfl, rfl⟩

/-- C9 (amended): for every stored value that is falsy (false, 0, "",
null), a data GET returns `value: null`; the GET response's value field
equals the stored value exactly when that value is truthy or is null
itself, because both the handler and the mock store coerce with
`|| null`. -/
theorem claim_C9 (k u : String) (v : Json) (st : Store)
    (hk : k ≠ "") (hu : u ≠ "") :
    ((dataHandler .get (some k) (some u) none
        (dataHandler .post (some k) (some u) (some (Json.obj [("value", v)])) st).2).1).body.field "value"
      = some (if v.truthy then v else Json.null)
    ∧ (((dataHandler .get (some k) (some u) none
          (dataHandler .post (some k) (some u) (some (Json.obj [("value", v)])) st).2).1).body.field "value"
        = some v
      ↔ (v.truthy = true ∨ v = Json.null)) := by
  have hbody : (Json.obj [("value", v)]).field "value" = some v := by
    simp [Json.field, List.lookup]
  have hget : ((dataHandler .get (some k) (some u) none
        (dataHandler .post (some k) (some u) (some (Json.obj [("value", v)])) st).2).1).body.field "value"
      = some (jsOrNull v) := by
    simp [dataHandler, hk, hu, hbody, setValue, getValue, Store.get_set_self, jsOrNull_idem,
      field_value_envelope]
  rw [hget]
  by_cases hv : v.truthy
  · simp [jsOrNull, hv]
  · have hvf : v.truthy = false := by simpa using hv
    simp only [jsOrNull, hvf, Bool.false_eq_true, if_false, Option.some.injEq, false_or,
      true_and, eq_self_iff_true]
    exact eq_comm

/-- C9 witness: the amended statement at the concrete falsy value `0`. -/
theorem claim_C9_witness :
    ((dataHandler .get (some "flag") (some "default") none
        (dataHandler .post (some "flag") (some "default")
          (some (Json.obj [("value", Json.num 0)])) Store.empty).2).1).body.field "value"
      = some (if (Json.num 0).truthy then Json.num 0 else Json.null)
    ∧ (((dataHandler .get (some "flag") (some "default") none
          (dataHandler .post (some "flag") (some "default")
            (some (Json.obj [("value", Json.num 0)])) Store.empty).2).1).body.field "value"
        = some (Json.num 0)
      ↔ ((Json.num 0).truthy = true ∨ Json.num 0 = Json.null)) :=
  claim_C9 "flag" "default" (Json.num 0) Store.empty (by decide) (by decide)

/-! ## Claim C10 — client and API platform configuration copies -/

/-- C10, counterexample: the client and API copies of the linkedin
platform configuration are not identical — their icon strings differ (the
client file's icon is a mis-encoded rendition of the API emoji). -/
theorem claim_C10_counterexample :
    clientPlatformConfigs "linkedin" ≠ apiPlatformConfigs "linkedin"
    ∧ (clientPlatformConfigs "linkedin").map PlatformConfig.icon
      ≠ (apiPlatformConfigs "linkedin").map PlatformConfig.icon := by
  refine ⟨by decide, by decide⟩

/-- C10 (amended): for each of the four platform identifiers, the display
name, color and maximum post length recorded in the client copy equal
those in the API copy, but the icon strings differ on every platform. -/
theorem claim_C10 (p : String)
    (hp : p ∈ (["linkedin", "instagram", "twitter", "facebook"] : List String)) :
    (clientPlatformConfigs p).map PlatformConfig.name
      = (apiPlatformConfigs p).map PlatformConfig.name
    ∧ (clientPlatformConfigs p).map PlatformConfig.color
      = (apiPlatformConfigs p).map PlatformConfig.color
    ∧ (clientPlatformConfigs p).map PlatformConfig.maxLength
      = (apiPlatformConfigs p).map PlatformConfig.maxLength
    ∧ (clientPlatformConfigs p).map PlatformConfig.icon
      ≠ (apiPlatformConfigs p).map PlatformConfig.icon
    ∧ (clientPlatformConfigs p).isSome := by
  fin_cases hp <;> refine ⟨by decide, by decide, by decide, by decide, by decide⟩

/-- C10 witness: the amended statement at the concrete identifier
instagram. -/
theorem claim_C10_witness :
    (clientPlatformConfigs "instagram").map PlatformConfig.name
      = (apiPlatformConfigs "instagram").map PlatformConfig.name
    ∧ (clientPlatformConfigs "instagram").map PlatformConfig.color
      = (apiPlatformConfigs "instagram").map PlatformConfig.color
    ∧ (clientPlatformConfigs "instagram").map PlatformConfig.maxLength
      = (apiPlatformConfigs "instagram").map PlatformConfig.maxLength
    ∧ (clientPlatformConfigs "instagram").map PlatformConfig.icon
      ≠ (apiPlatformConfigs "instagram").map PlatformConfig.icon
    ∧ (clientPlatformConfigs "instagram").isSome :=
  claim_C10 "instagram" (by decide)

end SMPG
